import Mathlib

/-!
Verification of the simple-database storage engine
(`src/simple_database/main.py`) against its specification.

The Python module is shallowly embedded: the filesystem is an explicit
state value threaded through the operations, Python dictionaries are
association lists that preserve insertion order, JSON-representable
runtime values are an inductive type, and every fallible operation
returns `Except DBError`.  Each definition mirrors the corresponding
Python function; comments cite the behaviour being modelled.
-/

set_option autoImplicit false

namespace SimpleDB

/-- A calendar date, as produced by `datetime.date(year, month, day)`. -/
structure PyDate where
  year : Nat
  month : Nat
  day : Nat
deriving DecidableEq, Repr

/-- Zero-pad a number to two digits, as in `date.isoformat`. -/
def pad2 (n : Nat) : String :=
  if n < 10 then "0" ++ toString n else toString n

/-- Zero-pad a number to four digits, as in `date.isoformat`. -/
def pad4 (n : Nat) : String :=
  if n < 10 then "000" ++ toString n
  else if n < 100 then "00" ++ toString n
  else if n < 1000 then "0" ++ toString n
  else toString n

/-- Model of `date.isoformat()`: the ISO-8601 rendering `YYYY-MM-DD`. -/
def PyDate.isoformat (d : PyDate) : String :=
  pad4 d.year ++ "-" ++ pad2 d.month ++ "-" ++ pad2 d.day

/-- Runtime values the engine stores: Python `str`, `int`, `float`,
`bool` and `datetime.date`.  A float is carried by its `repr` string;
Python's JSON codec round-trips floats exactly via `repr`, so identity
on this representation is a faithful model of that round trip. -/
inductive Value where
  | str (s : String)
  | int (n : Int)
  | float (r : String)
  | bool (b : Bool)
  | date (d : PyDate)
deriving DecidableEq, Repr

/-- Model of `type(v).__name__` for the supported runtime values. -/
def pyTypeName : Value → String
  | .str _ => "str"
  | .int _ => "int"
  | .float _ => "float"
  | .bool _ => "bool"
  | .date _ => "date"

/-- Whether a value is a `datetime.date`. -/
def Value.isDate : Value → Bool
  | .date _ => true
  | _ => false

/-- Model of `DateTimeEncoder.default`: a `date` is serialized as its ISO-8601
string; every other supported value is JSON-native and kept as is. -/
def encodeValue : Value → Value
  | .date d => .str d.isoformat
  | v => v

/-- A column descriptor from a schema: a name and a type tag
(the dictionary `\x7b'name': ..., 'type': ...\x7d`). -/
structure Column where
  name : String
  type : String
deriving DecidableEq, Repr

/-- A Python dict from field name to value, in insertion order. -/
abbrev PyRow := List (String × Value)

/-- The parsed content of a table's JSON file:
`\x7b'columns': columns, 'rows': [...]\x7d`.  `columns` is `none` when
the file holds JSON `null`. -/
structure TableFile where
  columns : Option (List Column)
  rows : List PyRow
deriving DecidableEq, Repr

/-- The filesystem under `BASE_DB_FILE_PATH`: each database directory
maps to its directory listing, a list of (filename, parsed table file)
in `os.listdir` order.  The engine only ever stores table JSON files,
so file contents are modelled as parsed `TableFile` values. -/
structure FS where
  dbs : List (String × List (String × TableFile))
deriving DecidableEq, Repr

/-- The directory listing of database `db`, or `none` if the
directory does not exist. -/
def fsFind (fs : FS) (db : String) : Option (List (String × TableFile)) :=
  (fs.dbs.find? (fun p => p.1 == db)).map (fun p => p.2)

/-- Model of `os.path.exists` on a database directory. -/
def dirExists (fs : FS) (db : String) : Bool :=
  (fsFind fs db).isSome

/-- Model of `os.path.exists` on a file inside a database directory. -/
def fileExists (fs : FS) (db fname : String) : Bool :=
  match fsFind fs db with
  | some fls => fls.any (fun p => p.1 == fname)
  | none => false

/-- Model of `json.load` of a file inside a database directory. -/
def readTableFile (fs : FS) (db fname : String) : Option TableFile :=
  (fsFind fs db).bind (fun fls => ((fls.find? (fun p => p.1 == fname)).map (fun p => p.2)))

/-- Replace the entry for `fname` in a directory listing, or append it
at the end when absent (the effect of `open(path, 'w')` plus a full
write; file names in a directory are unique). -/
def setFile (fls : List (String × TableFile)) (fname : String) (tf : TableFile) :
    List (String × TableFile) :=
  match fls with
  | [] => [(fname, tf)]
  | p :: ps => if p.1 == fname then (fname, tf) :: ps else p :: setFile ps fname tf

/-- Write a whole table file into the listing of database `db`,
leaving other databases untouched. -/
def writeDbs (dbs : List (String × List (String × TableFile)))
    (db fname : String) (tf : TableFile) :
    List (String × List (String × TableFile)) :=
  match dbs with
  | [] => []
  | p :: ps => if p.1 == db then (p.1, setFile p.2 fname tf) :: ps
               else p :: writeDbs ps db fname tf

/-- Write a whole table file into database `db`.  `open(path, mode='w')`
requires the directory to exist (otherwise Python raises `IOError`);
this model leaves the filesystem unchanged in that unreachable case and
the theorems below assume the directory exists. -/
def writeFile (fs : FS) (db fname : String) (tf : TableFile) : FS :=
  ⟨writeDbs fs.dbs db fname tf⟩

/-- Model of `'\x7b\x7d.json'.format(self.name)`: the table's file name. -/
def tableFilename (name : String) : String := name ++ ".json"

/-- The in-memory `Table` object: its database name, its name, and
`self.columns` (`none` models Python `None`). -/
structure Table where
  db : String
  name : String
  columns : Option (List Column)
deriving DecidableEq, Repr

/-- Model of `Table._read_columns`: `json.load(table_file)['columns']`.  The
file always exists when this runs (`__init__` creates it first); a
missing file would raise `IOError`, modelled as `none`. -/
def readColumns (fs : FS) (db name : String) : Option (List Column) :=
  match readTableFile fs db (tableFilename name) with
  | some tf => tf.columns
  | none => none

/-- Python's `columns or self._read_columns()`: `None` and the empty
list are both falsy, so either falls through to the right operand. -/
def pyOr (c d : Option (List Column)) : Option (List Column) :=
  match c with
  | some cs => if cs.isEmpty then d else some cs
  | none => d

/-- Model of `Table.__init__`: if the table's JSON file does not exist, write
`\x7b'columns': columns, 'rows': []\x7d`; then set
`self.columns = columns or self._read_columns()`.  Returns the updated
filesystem and the constructed handle. -/
def tableInit (fs : FS) (db name : String) (columns : Option (List Column)) :
    FS × Table :=
  let fname := tableFilename name
  let fs1 := if fileExists fs db fname then fs
             else writeFile fs db fname ⟨columns, []⟩
  (fs1, ⟨db, name, pyOr columns (readColumns fs1 db name)⟩)

/-- The errors the module can raise.  `validationError` carries its
optional message (`DataBase.create_table` raises it bare). -/
inductive DBError where
  | validationError (msg : Option String)
  | typeError (msg : String)
  | keyError (key : String)
  | ioError (msg : String)
deriving DecidableEq, Repr

/-- Model of `data[f_name] = args[i]` on a Python dict: overwrite in place if
the key exists, otherwise append preserving insertion order. -/
def dictInsert (d : PyRow) (k : String) (v : Value) : PyRow :=
  if d.any (fun p => p.1 == k) then
    d.map (fun p => if p.1 == k then (k, v) else p)
  else
    d ++ [(k, v)]

/-- The validation loop of `Table.insert`: for each column in order,
require `col['type'] == type(args[i]).__name__`, accumulating
`data[f_name] = args[i]`; on the first mismatch raise `ValidationError`
with the message naming the field, the given type and the expected
type.  The caller has already checked the two lists have equal length,
so the ragged cases are unreachable. -/
def buildData (cols : List Column) (args : List Value) (acc : PyRow) :
    Except DBError PyRow :=
  match cols, args with
  | [], _ => .ok acc
  | _ :: _, [] => .ok acc
  | c :: cs, a :: rest =>
      if c.type == pyTypeName a then
        buildData cs rest (dictInsert acc c.name a)
      else
        .error (.validationError (some ("Invalid type of field \"" ++ c.name ++
          "\": Given \"" ++ pyTypeName a ++ "\", expected \"" ++ c.type ++ "\"")))

/-- One serialized row: `json.dumps` with `DateTimeEncoder` maps each
date value to its ISO string. -/
def encodeRow (r : PyRow) : PyRow :=
  r.map (fun p => (p.1, encodeValue p.2))

/-- Model of `Table._write_row`: read the whole file, append the row, rewrite
the file.  (`open(mode='r+')` plus `seek(0)` overwrites the old content
entirely because the new JSON text is strictly longer.)  The file
always exists here, `__init__` having created it; the missing-file
`IOError` case leaves the filesystem unchanged and is unreachable. -/
def writeRow (fs : FS) (t : Table) (row : PyRow) : FS :=
  match readTableFile fs t.db (tableFilename t.name) with
  | some tf => writeFile fs t.db (tableFilename t.name)
      { tf with rows := tf.rows ++ [encodeRow row] }
  | none => fs

/-- Model of `Table.insert(*args)`: `len(args)` must equal `len(self.columns)`
(`len(None)` would raise `TypeError` when the schema is null), each
positional value must match its column's declared type tag, then the
row is appended via the whole-file rewrite. -/
def tableInsert (fs : FS) (t : Table) (args : List Value) : Except DBError FS :=
  match t.columns with
  | none => .error (.typeError "object of type 'NoneType' has no len()")
  | some cols =>
      if args.length != cols.length then
        .error (.validationError (some "Invalid amount of field"))
      else
        match buildData cols args [] with
        | .error e => .error e
        | .ok data => .ok (writeRow fs t data)

/-- A `Row` object: constructed from a stored row dict, each key
becoming an attribute holding its value.  Stored rows come from JSON
objects, whose keys are unique, so the attribute map is the dict. -/
structure Row where
  fields : PyRow
deriving DecidableEq, Repr

/-- Model of `row[key]`: look a field up in a stored row dict. -/
def rowGet (r : PyRow) (k : String) : Option Value :=
  (r.find? (fun p => p.1 == k)).map (fun p => p.2)

/-- The inner loop of `Table.query` for one stored row:
`for key, value in kwargs.items(): if row[key] == value: yield Row(row)`.
The row is yielded once per predicate key it satisfies; a predicate key
absent from the row raises `KeyError`. -/
def queryRowYields (r : PyRow) (preds : List (String × Value)) :
    Except DBError (List Row) :=
  match preds with
  | [] => .ok []
  | (k, v) :: rest =>
      match rowGet r k with
      | none => .error (.keyError k)
      | some w =>
          match queryRowYields r rest with
          | .error e => .error e
          | .ok tail => .ok (if w = v then ⟨r⟩ :: tail else tail)

/-- The outer loop of `Table.query`: run the inner loop over every
stored row in order, concatenating the yields. -/
def queryRows (rows : List PyRow) (preds : List (String × Value)) :
    Except DBError (List Row) :=
  match rows with
  | [] => .ok []
  | r :: rs =>
      match queryRowYields r preds with
      | .error e => .error e
      | .ok ys =>
          match queryRows rs preds with
          | .error e => .error e
          | .ok rest => .ok (ys ++ rest)

/-- Model of `Table.query(**kwargs)`: re-read the file and scan its rows.  The
generator is modelled by the list of rows it yields when exhausted. -/
def tableQuery (fs : FS) (t : Table) (preds : List (String × Value)) :
    Except DBError (List Row) :=
  match readTableFile fs t.db (tableFilename t.name) with
  | some tf => queryRows tf.rows preds
  | none => .error (.ioError "No such file or directory")

/-- Model of `Table.all()`: re-read the file and yield every stored row as a
`Row` value, in order. -/
def tableAll (fs : FS) (t : Table) : Except DBError (List Row) :=
  match readTableFile fs t.db (tableFilename t.name) with
  | some tf => .ok (tf.rows.map Row.mk)
  | none => .error (.ioError "No such file or directory")

/-- Model of `Table.count()`: re-read the file and return `len(data['rows'])`. -/
def tableCount (fs : FS) (t : Table) : Except DBError Nat :=
  match readTableFile fs t.db (tableFilename t.name) with
  | some tf => .ok tf.rows.length
  | none => .error (.ioError "No such file or directory")

/-- Model of `Table.describe()`: return `self.columns`, no file read. -/
def describe (t : Table) : Option (List Column) :=
  t.columns

/-- Model of `'.json' in f` on the character list: scan left to right for the
five-character pattern. -/
def hasJsonChars : List Char → Bool
  | '.' :: 'j' :: 's' :: 'o' :: 'n' :: _ => true
  | _ :: cs => hasJsonChars cs
  | [] => false

/-- Model of `f.replace('.json', '')` on the character list: replace leftmost
occurrences first, non-overlapping, continuing after each match. -/
def stripJsonChars : List Char → List Char
  | '.' :: 'j' :: 's' :: 'o' :: 'n' :: rest => stripJsonChars rest
  | c :: cs => c :: stripJsonChars cs
  | [] => []

/-- Model of `'.json' in f`: substring test. -/
def hasJsonSub (s : String) : Bool :=
  hasJsonChars s.data

/-- Model of `f.replace('.json', '')`: drop every occurrence of `.json`. -/
def stripJson (s : String) : String :=
  ⟨stripJsonChars s.data⟩

/-- The in-memory `DataBase` object: its name, the table-name list,
and the dynamically assigned table attributes as a name-to-handle
association list. -/
structure DataBase where
  name : String
  tables : List String
  handles : List (String × Table)
deriving DecidableEq, Repr

/-- Model of `DataBase._read_tables`: list the directory, keep filenames
containing `.json`, strip the extension, then construct a `Table` with
no explicit schema for each name (which reads the persisted schema) and
record it as an attribute.  `os.listdir` on a missing directory raises
`FileNotFoundError`; the model returns the empty listing there and the
theorems assume the directory exists. -/
def readTables (fs : FS) (db : String) :
    FS × List String × List (String × Table) :=
  let names :=
    match fsFind fs db with
    | some fls => ((fls.map (fun p => p.1)).filter hasJsonSub).map stripJson
    | none => []
  let init := names.foldl
    (fun acc n =>
      let st := tableInit acc.1 db n none
      (st.1, acc.2 ++ [(n, st.2)]))
    (fs, ([] : List (String × Table)))
  (init.1, names, init.2)

/-- Model of `DataBase.__init__` and `connect_database`: build the handle and
discover its tables. -/
def connectDatabase (fs : FS) (db : String) : FS × DataBase :=
  let st := readTables fs db
  (st.1, ⟨db, st.2.1, st.2.2⟩)

/-- Model of `DataBase.create`: raise `ValidationError` if the directory
exists, else `os.makedirs` creates the directory and nothing else. -/
def dbCreate (fs : FS) (name : String) : Except DBError FS :=
  if dirExists fs name then
    .error (.validationError (some ("Database with name \"" ++ name ++
      "\" already exists.")))
  else
    .ok ⟨fs.dbs ++ [(name, [])]⟩

/-- Model of `create_database`: `DataBase.create` then `connect_database`. -/
def createDatabase (fs : FS) (name : String) :
    Except DBError (FS × DataBase) :=
  match dbCreate fs name with
  | .error e => .error e
  | .ok fs1 => .ok (connectDatabase fs1 name)

/-- Model of `DataBase.create_table`: raise a bare `ValidationError` when the
name is already catalogued; otherwise construct the table, append the
name to `self.tables` and record the attribute. -/
def createTable (fs : FS) (db : DataBase) (name : String)
    (columns : Option (List Column)) : Except DBError (FS × DataBase) :=
  if db.tables.contains name then
    .error (.validationError none)
  else
    let st := tableInit fs db.name name columns
    .ok (st.1, ⟨db.name, db.tables ++ [name], db.handles ++ [(name, st.2)]⟩)

/-- Model of `DataBase.show_tables`: return the current table-name list. -/
def showTables (db : DataBase) : List String :=
  db.tables

/-! Helper lemmas about the filesystem model. -/

/-- After `setFile`, looking the file name up finds exactly the new
content, whether the name was present before or not. -/
theorem find_setFile (fls : List (String × TableFile)) (fname : String)
    (tf : TableFile) :
    (setFile fls fname tf).find? (fun p => p.1 == fname) = some (fname, tf) := by
  induction fls with
  | nil => simp [setFile]
  | cons p ps ih =>
      rw [setFile]
      by_cases hp : p.1 = fname
      · have hb : (p.1 == fname) = true := beq_iff_eq.mpr hp
        rw [hb]
        simp
      · have hb : (p.1 == fname) = false := beq_eq_false_iff_ne.mpr hp
        rw [hb]
        simp only [Bool.false_eq_true, if_false]
        rw [List.find?_cons_of_neg _ (by simp [hb]), ih]

/-- Lemma: `writeDbs` updates the found directory's listing with `setFile`. -/
theorem find?_writeDbs (dbs : List (String × List (String × TableFile)))
    (db fname : String) (tf : TableFile) (q : String × List (String × TableFile))
    (h : dbs.find? (fun p => p.1 == db) = some q) :
    (writeDbs dbs db fname tf).find? (fun p => p.1 == db) =
      some (q.1, setFile q.2 fname tf) := by
  induction dbs with
  | nil => simp at h
  | cons p ps ih =>
      rw [writeDbs]
      by_cases hp : p.1 = db
      · have hb : (p.1 == db) = true := beq_iff_eq.mpr hp
        simp only [List.find?_cons, hb] at h
        rw [hb]
        simp only [if_true]
        cases h
        simp [List.find?_cons, hb]
      · have hb : (p.1 == db) = false := beq_eq_false_iff_ne.mpr hp
        simp only [List.find?_cons, hb] at h
        rw [hb]
        simp only [Bool.false_eq_true, if_false]
        simp only [List.find?_cons, hb]
        exact ih h

/-- Lemma: `writeFile` on an existing directory updates that directory's
listing with `setFile` and nothing else. -/
theorem fsFind_writeFile (fs : FS) (db fname : String) (tf : TableFile)
    (fls : List (String × TableFile)) (h : fsFind fs db = some fls) :
    fsFind (writeFile fs db fname tf) db = some (setFile fls fname tf) := by
  unfold fsFind at h
  cases hf : fs.dbs.find? (fun p => p.1 == db) with
  | none => rw [hf] at h; simp at h
  | some q =>
      rw [hf, Option.map_some'] at h
      cases h
      unfold fsFind writeFile
      rw [find?_writeDbs fs.dbs db fname tf q hf]
      rfl

/-- Reading back a file just written returns the written content. -/
theorem readTableFile_writeFile (fs : FS) (db fname : String) (tf : TableFile)
    (fls : List (String × TableFile)) (h : fsFind fs db = some fls) :
    readTableFile (writeFile fs db fname tf) db fname = some tf := by
  unfold readTableFile
  rw [fsFind_writeFile fs db fname tf fls h]
  simp [find_setFile]

/-- A successful `readTableFile` means the directory exists. -/
theorem fsFind_of_readTableFile (fs : FS) (db fname : String) (tf : TableFile)
    (h : readTableFile fs db fname = some tf) :
    ∃ fls, fsFind fs db = some fls := by
  unfold readTableFile at h
  cases hf : fsFind fs db with
  | none => rw [hf] at h; simp at h
  | some fls => exact ⟨fls, rfl⟩

/-- In a listing with unique file names, `find?` at a member's name
returns that member. -/
theorem find?_mem_nodup (fls : List (String × TableFile))
    (p : String × TableFile) (hnd : (fls.map Prod.fst).Nodup) (hm : p ∈ fls) :
    fls.find? (fun q => q.1 == p.1) = some p := by
  induction fls with
  | nil => simp at hm
  | cons q qs ih =>
      rw [List.map_cons, List.nodup_cons] at hnd
      rcases List.mem_cons.mp hm with hq | hq
      · subst hq
        simp [List.find?]
      · have hne : (q.1 == p.1) = false := by
          rw [beq_eq_false_iff_ne]
          intro he
          exact hnd.1 (he ▸ List.mem_map_of_mem Prod.fst hq)
        simp [List.find?, hne, ih hnd.2 hq]

/-! Helper lemmas about insert validation and serialization. -/

/-- When every positional value matches its column's type tag and the
column names are distinct, the validation loop succeeds and builds the
dict pairing each column name with its value, appended to whatever the
accumulator already holds. -/
theorem buildData_ok (cols : List Column) (args : List Value)
    (hty : List.Forall₂ (fun c a => c.type = pyTypeName a) cols args) :
    ∀ acc : PyRow, (cols.map Column.name).Nodup →
    (∀ p ∈ acc, p.1 ∉ cols.map Column.name) →
    buildData cols args acc = .ok (acc ++ List.zip (cols.map Column.name) args) := by
  induction hty with
  | nil => intro acc _ _; simp [buildData]
  | @cons c a cs rest hca hrest ih =>
      intro acc hnd hacc
      rw [List.map_cons, List.nodup_cons] at hnd
      have hb : (c.type == pyTypeName a) = true := beq_iff_eq.mpr hca
      rw [buildData, hb]
      simp only [if_true]
      have hnotin : (acc.any fun p => p.1 == c.name) = false := by
        rw [Bool.eq_false_iff]
        intro hany
        rcases List.any_eq_true.mp hany with ⟨p, hp, hpe⟩
        exact hacc p hp (beq_iff_eq.mp hpe ▸ List.mem_cons_self _ _)
      rw [dictInsert, hnotin]
      simp only [Bool.false_eq_true, if_false]
      have hacc2 : ∀ p ∈ acc ++ [(c.name, a)], p.1 ∉ cs.map Column.name := by
        intro p hp
        rcases List.mem_append.mp hp with hp1 | hp1
        · exact fun hmem => hacc p hp1 (List.mem_cons_of_mem _ hmem)
        · rcases List.mem_singleton.mp hp1 with rfl
          exact hnd.1
      rw [ih (acc ++ [(c.name, a)]) hnd.2 hacc2]
      simp

/-- When the lengths agree and some position's value has the wrong
runtime type, the validation loop raises `ValidationError` naming some
mismatched position's field, given type and expected type. -/
theorem buildData_err (cols : List Column) (args : List Value) (acc : PyRow)
    (hlen : cols.length = args.length)
    (hm : ∃ i, ∃ (h1 : i < cols.length) (h2 : i < args.length),
      (cols[i]).type ≠ pyTypeName args[i]) :
    ∃ j, ∃ (h1 : j < cols.length) (h2 : j < args.length),
      (cols[j]).type ≠ pyTypeName args[j] ∧
      buildData cols args acc = .error (.validationError (some
        ("Invalid type of field \"" ++ (cols[j]).name ++ "\": Given \"" ++
          pyTypeName args[j] ++ "\", expected \"" ++ (cols[j]).type ++ "\""))) := by
  induction cols generalizing args acc with
  | nil =>
      rcases hm with ⟨i, h1, _, _⟩
      simp at h1
  | cons c cs ih =>
      cases args with
      | nil => simp at hlen
      | cons a rest =>
          by_cases hca : c.type = pyTypeName a
          · have hb : (c.type == pyTypeName a) = true := beq_iff_eq.mpr hca
            replace hlen : cs.length = rest.length := by simpa using hlen
            have hm' : ∃ i, ∃ (h1 : i < cs.length) (h2 : i < rest.length),
                (cs[i]).type ≠ pyTypeName rest[i] := by
              rcases hm with ⟨i, h1, h2, hne⟩
              cases i with
              | zero => exact absurd hca (by simpa using hne)
              | succ k =>
                  exact ⟨k, Nat.lt_of_succ_lt_succ h1, Nat.lt_of_succ_lt_succ h2,
                    by simpa using hne⟩
            rcases ih rest (dictInsert acc c.name a) hlen hm' with
              ⟨j, hj1, hj2, hjne, hjeq⟩
            refine ⟨j + 1, Nat.succ_lt_succ hj1, Nat.succ_lt_succ hj2, by simpa using hjne, ?_⟩
            rw [buildData, hb]
            simp only [if_true]
            simpa using hjeq
          · have hb : (c.type == pyTypeName a) = false :=
              beq_eq_false_iff_ne.mpr hca
            refine ⟨0, Nat.succ_pos _, Nat.succ_pos _, by simpa using hca, ?_⟩
            rw [buildData, hb]
            simp

/-- Looking up the `i`-th name in the zipped dict returns the `i`-th
value, provided the names are distinct. -/
theorem rowGet_zip (names : List String) (args : List Value) (i : Nat)
    (h1 : i < names.length) (h2 : i < args.length) (hnd : names.Nodup) :
    rowGet (List.zip names args) names[i] = some args[i] := by
  induction names generalizing args i with
  | nil => simp at h1
  | cons n ns ih =>
      cases args with
      | nil => simp at h2
      | cons a rest =>
          rw [List.nodup_cons] at hnd
          rw [List.zip_cons_cons]
          cases i with
          | zero =>
              simp only [List.getElem_cons_zero]
              unfold rowGet
              rw [List.find?_cons_of_pos _ (by simp)]
              rfl
          | succ k =>
              simp only [List.getElem_cons_succ]
              have hk1 : k < ns.length := Nat.lt_of_succ_lt_succ h1
              have hne : ((n, a).1 == ns[k]) = false := by
                rw [beq_eq_false_iff_ne]
                intro he
                refine hnd.1 ?_
                have he' : n = ns[k] := he
                rw [he']
                exact List.getElem_mem hk1
              unfold rowGet
              rw [List.find?_cons_of_neg _ (by rw [hne]; simp)]
              exact ih rest k hk1 (Nat.lt_of_succ_lt_succ h2) hnd.2

/-- Serialization is the identity on every value but a date. -/
theorem encodeValue_of_not_date (v : Value) (h : v.isDate = false) :
    encodeValue v = v := by
  cases v with
  | date d => simp [Value.isDate] at h
  | str s => rfl
  | int n => rfl
  | float r => rfl
  | bool b => rfl

/-- Serialization is the identity on a row containing no date value. -/
theorem encodeRow_of_no_date (r : PyRow) (h : ∀ p ∈ r, p.2.isDate = false) :
    encodeRow r = r := by
  induction r with
  | nil => rfl
  | cons p ps ih =>
      have h2 := ih (fun q hq => h q (List.mem_cons_of_mem _ hq))
      unfold encodeRow at h2 ⊢
      rw [List.map_cons, h2,
        encodeValue_of_not_date p.2 (h p (List.mem_cons_self _ _))]

/-- Opening an existing table file with no schema leaves the
filesystem untouched and loads the persisted schema. -/
theorem tableInit_existing (fs : FS) (db name : String)
    (hf : fileExists fs db (tableFilename name) = true) :
    tableInit fs db name none = (fs, ⟨db, name, readColumns fs db name⟩) := by
  simp only [tableInit, hf, if_true]
  rfl

/-- The table-discovery fold of `_read_tables`: when every listed name
has an existing backing file, the filesystem is left untouched and each
name is bound to a handle carrying its persisted schema. -/
theorem readTables_fold (names : List String) (fs : FS) (db : String) :
    ∀ acc : List (String × Table),
    (∀ n ∈ names, fileExists fs db (tableFilename n) = true) →
    names.foldl (fun a n =>
        ((tableInit a.1 db n none).1, a.2 ++ [(n, (tableInit a.1 db n none).2)]))
        (fs, acc)
      = (fs, acc ++ names.map (fun n => (n, ⟨db, n, readColumns fs db n⟩))) := by
  induction names with
  | nil => intro acc _; simp
  | cons n ns ih =>
      intro acc hall
      rw [List.foldl_cons]
      have ht := tableInit_existing fs db n (hall n (List.mem_cons_self _ _))
      simp only [ht]
      have hstep := ih (acc ++ [(n, (⟨db, n, readColumns fs db n⟩ : Table))])
        (fun m hm => hall m (List.mem_cons_of_mem _ hm))
      rw [hstep]
      simp

/-! Concrete data used by the query claims. -/

/-- A stored row, as in the spec's example scenario. -/
def anaRow : PyRow := [("name", .str "Ana"), ("age", .int 30)]

/-- A one-table filesystem whose table holds the single row `anaRow`. -/
def exampleFS : FS :=
  ⟨[("library", [("authors.json",
    ⟨some [⟨"name", "str"⟩, ⟨"age", "int"⟩], [anaRow]⟩)])]⟩

/-- The handle for the table of `exampleFS`. -/
def exampleTable : Table :=
  ⟨"library", "authors", some [⟨"name", "str"⟩, ⟨"age", "int"⟩]⟩

/-! The claims. -/

/-- Claim C1: the spec says `query` yields a stored row iff every
(key, value) predicate pair satisfies `row[key] == value` (logical AND,
each matching row yielded once).  The code's inner loop instead yields
the row once per satisfied predicate key: on a table holding only
`anaRow` (name "Ana", age 30), the two-key query `name="Ana", age=31`
still yields the row (age does not match), and the fully matching query
`name="Ana", age=30` yields the row twice. -/
theorem query_yields_once_per_matching_key :
    tableQuery exampleFS exampleTable [("name", .str "Ana"), ("age", .int 31)]
      = .ok [⟨anaRow⟩] ∧
    tableQuery exampleFS exampleTable [("name", .str "Ana"), ("age", .int 30)]
      = .ok [⟨anaRow⟩, ⟨anaRow⟩] :=
  ⟨rfl, rfl⟩

/-- Claim C2: the spec says `query` with an empty predicate-map yields
all stored rows in order, equivalently to `all()`.  The code's inner
loop runs zero times for an empty predicate-map, so `query` yields
nothing, while `all()` yields the stored row: on a table with one row
(and `count() = 1`) the two disagree. -/
theorem query_empty_predicates_yields_nothing :
    tableQuery exampleFS exampleTable [] = .ok [] ∧
    tableAll exampleFS exampleTable = .ok [⟨anaRow⟩] ∧
    tableCount exampleFS exampleTable = .ok 1 :=
  ⟨rfl, rfl, rfl⟩

/-- Claim C3, counterexample: with a backing file persisting schema
`[a : int]`, constructing the handle with passed-in schema `[b : str]`
makes `describe()` return the passed-in schema, not the persisted one —
the passed-in schema is not ignored. -/
theorem open_existing_uses_passed_schema :
    ((tableInit (⟨[("db", [("t.json", ⟨some [⟨"a", "int"⟩], []⟩)])]⟩ : FS)
        "db" "t" (some [⟨"b", "str"⟩])).2).columns = some [⟨"b", "str"⟩] ∧
    readColumns (⟨[("db", [("t.json", ⟨some [⟨"a", "int"⟩], []⟩)])]⟩ : FS)
        "db" "t" = some [⟨"a", "int"⟩] ∧
    (some [(⟨"b", "str"⟩ : Column)] : Option (List Column)) ≠ some [⟨"a", "int"⟩] ∧
    fileExists (⟨[("db", [("t.json", ⟨some [⟨"a", "int"⟩], []⟩)])]⟩ : FS)
        "db" (tableFilename "t") = true :=
  ⟨rfl, rfl, by decide, rfl⟩

/-- Claim C3 as amended: when the backing file exists, the constructor
leaves the filesystem untouched; a non-empty passed-in schema is used
as `self.columns` (so `describe()` returns it), and the persisted
schema is loaded only when no schema is passed. -/
theorem open_existing_schema_choice (fs : FS) (db name : String)
    (cols : Option (List Column))
    (hfile : fileExists fs db (tableFilename name) = true) :
    (tableInit fs db name cols).1 = fs ∧
    (∀ cs, cols = some cs → cs ≠ [] →
      ((tableInit fs db name cols).2).columns = some cs) ∧
    (cols = none →
      ((tableInit fs db name cols).2).columns = readColumns fs db name) := by
  refine ⟨?_, ?_, ?_⟩
  · simp only [tableInit, hfile, if_true]
  · intro cs hcs hne
    subst hcs
    simp only [tableInit, hfile, if_true]
    have he : cs.isEmpty = false := List.isEmpty_eq_false.mpr hne
    simp [pyOr, he]
  · intro hcs
    subst hcs
    simp only [tableInit, hfile, if_true]
    rfl

/-- Witness for `open_existing_schema_choice` at a concrete
filesystem: the file exists, a non-empty schema is passed, and the
handle carries the passed schema. -/
theorem open_existing_schema_choice_witness :
    ((tableInit (⟨[("db2", [("t.json", ⟨some [⟨"a", "int"⟩], []⟩)])]⟩ : FS)
        "db2" "t" (some [⟨"b", "str"⟩])).2).columns = some [⟨"b", "str"⟩] :=
  (open_existing_schema_choice
    (⟨[("db2", [("t.json", ⟨some [⟨"a", "int"⟩], []⟩)])]⟩ : FS)
    "db2" "t" (some [⟨"b", "str"⟩]) rfl).2.1 [⟨"b", "str"⟩] rfl (by decide)

/-- Claim C4, counterexample: inserting a `date` value succeeds
(its runtime type name matches the `date` type tag), but the value is
persisted as its ISO-8601 string, so the `Row` read back by `all()`
carries the string `"2020-01-02"`, which is not the inserted
`date(2020, 1, 2)` value: the round trip is not exact for dates. -/
theorem insert_date_reads_back_string :
    tableInsert (⟨[("db", [("events.json", ⟨some [⟨"d", "date"⟩], []⟩)])]⟩ : FS)
        ⟨"db", "events", some [⟨"d", "date"⟩]⟩ [.date ⟨2020, 1, 2⟩]
      = .ok (⟨[("db", [("events.json",
          ⟨some [⟨"d", "date"⟩], [[("d", .str "2020-01-02")]]⟩)])]⟩ : FS) ∧
    tableAll (⟨[("db", [("events.json",
          ⟨some [⟨"d", "date"⟩], [[("d", .str "2020-01-02")]]⟩)])]⟩ : FS)
        ⟨"db", "events", some [⟨"d", "date"⟩]⟩
      = .ok [⟨[("d", .str "2020-01-02")]⟩] ∧
    Value.str "2020-01-02" ≠ Value.date ⟨2020, 1, 2⟩ :=
  ⟨rfl, rfl, by decide⟩

/-- Claim C5: inserting a tuple whose length differs from the schema's
column count raises `ValidationError('Invalid amount of field')`; no
filesystem state is produced, so the persisted rows and `count()` are
untouched. -/
theorem insert_wrong_arity (fs : FS) (t : Table) (cols : List Column)
    (args : List Value) (hc : t.columns = some cols)
    (hlen : args.length ≠ cols.length) :
    tableInsert fs t args
      = .error (.validationError (some "Invalid amount of field")) := by
  have hb : (args.length != cols.length) = true := by
    simp only [bne_iff_ne, ne_eq]
    exact hlen
  simp [tableInsert, hc, hb]

/-- Witness for `insert_wrong_arity`: a two-column schema given one
value. -/
theorem insert_wrong_arity_witness :
    tableInsert exampleFS exampleTable [.str "Bo"]
      = .error (.validationError (some "Invalid amount of field")) :=
  insert_wrong_arity exampleFS exampleTable
    [⟨"name", "str"⟩, ⟨"age", "int"⟩] [.str "Bo"] rfl (by decide)

/-- Claim C7: creating a table whose name is already catalogued raises
`ValidationError` (bare, no message) before any mutation, and
`show_tables()` still returns the unchanged catalog. -/
theorem create_table_duplicate_name (fs : FS) (db : DataBase) (name : String)
    (cols : Option (List Column)) (h : db.tables.contains name = true) :
    createTable fs db name cols = .error (.validationError none) ∧
    showTables db = db.tables := by
  constructor
  · simp only [createTable, h, if_true]
  · rfl

/-- Witness for `create_table_duplicate_name`: a catalog already
holding "users". -/
theorem create_table_duplicate_name_witness :
    createTable exampleFS ⟨"library", ["authors"], []⟩ "authors" none
      = .error (.validationError none) :=
  (create_table_duplicate_name exampleFS ⟨"library", ["authors"], []⟩
    "authors" none (by decide)).1

/-- Claim C8: `DataBase.create` on an existing directory raises
`ValidationError` with exactly the message naming the database, and
produces no filesystem change; on a fresh name it appends exactly one
empty directory and nothing else. -/
theorem db_create_behaviour (fs : FS) (name : String) :
    (dirExists fs name = true →
      dbCreate fs name = .error (.validationError (some
        ("Database with name \"" ++ name ++ "\" already exists.")))) ∧
    (dirExists fs name = false →
      dbCreate fs name = .ok ⟨fs.dbs ++ [(name, [])]⟩) := by
  constructor <;> intro h <;> simp [dbCreate, h]

/-- Witness for `db_create_behaviour`: both branches at concrete
filesystems. -/
theorem db_create_behaviour_witness :
    dbCreate (⟨[("mydb", [])]⟩ : FS) "mydb"
      = .error (.validationError (some
        "Database with name \"mydb\" already exists.")) ∧
    dbCreate (⟨[]⟩ : FS) "mydb" = .ok ⟨[("mydb", [])]⟩ :=
  ⟨(db_create_behaviour (⟨[("mydb", [])]⟩ : FS) "mydb").1 rfl,
   (db_create_behaviour (⟨[]⟩ : FS) "mydb").2 rfl⟩

/-- Claim C10: constructing a `Table` with no schema over a missing
backing file succeeds with no error, persists exactly the content
with null columns and no rows, and the handle's schema is `None` —
nothing enforces a non-null schema for a fresh table file. -/
theorem table_init_accepts_null_schema (fs : FS) (db name : String)
    (fls : List (String × TableFile)) (hdir : fsFind fs db = some fls)
    (hfile : fileExists fs db (tableFilename name) = false) :
    tableInit fs db name none
      = (writeFile fs db (tableFilename name) ⟨none, []⟩, ⟨db, name, none⟩) ∧
    readTableFile (tableInit fs db name none).1 db (tableFilename name)
      = some ⟨none, []⟩ := by
  have hw := readTableFile_writeFile fs db (tableFilename name) ⟨none, []⟩ fls hdir
  have hc : readColumns (writeFile fs db (tableFilename name) ⟨none, []⟩) db name
      = none := by
    unfold readColumns
    rw [hw]
  have h1 : tableInit fs db name none
      = (writeFile fs db (tableFilename name) ⟨none, []⟩, ⟨db, name, none⟩) := by
    simp only [tableInit, hfile, Bool.false_eq_true, if_false]
    rw [show pyOr none (readColumns (writeFile fs db (tableFilename name)
      ⟨none, []⟩) db name) = readColumns (writeFile fs db (tableFilename name)
      ⟨none, []⟩) db name from rfl, hc]
  refine ⟨h1, ?_⟩
  rw [h1]
  exact hw

/-- Witness for `table_init_accepts_null_schema`: an empty database
directory gains the file with null columns. -/
theorem table_init_accepts_null_schema_witness :
    tableInit (⟨[("fresh", [])]⟩ : FS) "fresh" "t" none
      = (writeFile (⟨[("fresh", [])]⟩ : FS) "fresh" (tableFilename "t")
          ⟨none, []⟩, ⟨"fresh", "t", none⟩) :=
  (table_init_accepts_null_schema (⟨[("fresh", [])]⟩ : FS) "fresh" "t" []
    rfl rfl).1

/-- Claim C4 as amended: a successful insert of values that contain no
date appends exactly the row pairing each column name with its value,
and `all()` then yields the old rows followed by a `Row` whose field
values equal the inserted values exactly; a date value instead comes
back as its ISO-8601 string (see the counterexample). -/
theorem insert_roundtrip_no_date (fs : FS) (db name : String)
    (cols : List Column) (args : List Value) (tf : TableFile)
    (hread : readTableFile fs db (tableFilename name) = some tf)
    (hty : List.Forall₂ (fun c a => c.type = pyTypeName a) cols args)
    (hnd : (cols.map Column.name).Nodup)
    (hnodate : ∀ a ∈ args, a.isDate = false) :
    tableInsert fs ⟨db, name, some cols⟩ args
      = .ok (writeFile fs db (tableFilename name)
          ⟨tf.columns, tf.rows ++ [List.zip (cols.map Column.name) args]⟩) ∧
    tableAll (writeFile fs db (tableFilename name)
          ⟨tf.columns, tf.rows ++ [List.zip (cols.map Column.name) args]⟩)
        ⟨db, name, some cols⟩
      = .ok (tf.rows.map Row.mk ++ [⟨List.zip (cols.map Column.name) args⟩]) ∧
    ∀ i, ∀ h1 : i < cols.length, ∀ h2 : i < args.length,
      rowGet (List.zip (cols.map Column.name) args) ((cols.get ⟨i, h1⟩).name)
        = some (args.get ⟨i, h2⟩) := by
  have hlen : cols.length = args.length := hty.length_eq
  have hbd := buildData_ok cols args hty [] hnd (by intro p hp; simp at hp)
  have hb : (args.length != cols.length) = false := by simp [hlen]
  have henc : encodeRow (List.zip (cols.map Column.name) args)
      = List.zip (cols.map Column.name) args := by
    refine encodeRow_of_no_date _ ?_
    intro p hp
    exact hnodate p.2 (List.of_mem_zip hp).2
  rcases fsFind_of_readTableFile fs db (tableFilename name) tf hread with ⟨fls, hdir⟩
  refine ⟨?_, ?_, ?_⟩
  · simp only [tableInsert, hb, Bool.false_eq_true, if_false, hbd,
      List.nil_append, writeRow]
    rw [hread, henc]
  · unfold tableAll
    rw [readTableFile_writeFile fs db (tableFilename name) _ fls hdir]
    simp
  · intro i h1 h2
    have hg := rowGet_zip (cols.map Column.name) args i (by simpa using h1) h2 hnd
    simpa using hg

/-- Witness for `insert_roundtrip_no_date`: a string, an integer, a
float and a boolean all round-trip through insert and `all()`. -/
theorem insert_roundtrip_no_date_witness :
    tableInsert (⟨[("db", [("users.json",
        ⟨some [⟨"name", "str"⟩, ⟨"age", "int"⟩, ⟨"score", "float"⟩,
          ⟨"admin", "bool"⟩], []⟩)])]⟩ : FS)
      ⟨"db", "users", some [⟨"name", "str"⟩, ⟨"age", "int"⟩,
        ⟨"score", "float"⟩, ⟨"admin", "bool"⟩]⟩
      [.str "Ana", .int 30, .float "2.5", .bool true]
    = .ok (writeFile (⟨[("db", [("users.json",
        ⟨some [⟨"name", "str"⟩, ⟨"age", "int"⟩, ⟨"score", "float"⟩,
          ⟨"admin", "bool"⟩], []⟩)])]⟩ : FS) "db" (tableFilename "users")
        ⟨some [⟨"name", "str"⟩, ⟨"age", "int"⟩, ⟨"score", "float"⟩,
          ⟨"admin", "bool"⟩],
         [[("name", .str "Ana"), ("age", .int 30), ("score", .float "2.5"),
           ("admin", .bool true)]]⟩) :=
  (insert_roundtrip_no_date (⟨[("db", [("users.json",
      ⟨some [⟨"name", "str"⟩, ⟨"age", "int"⟩, ⟨"score", "float"⟩,
        ⟨"admin", "bool"⟩], []⟩)])]⟩ : FS) "db" "users"
    [⟨"name", "str"⟩, ⟨"age", "int"⟩, ⟨"score", "float"⟩, ⟨"admin", "bool"⟩]
    [.str "Ana", .int 30, .float "2.5", .bool true]
    ⟨some [⟨"name", "str"⟩, ⟨"age", "int"⟩, ⟨"score", "float"⟩,
      ⟨"admin", "bool"⟩], []⟩ rfl
    (.cons rfl (.cons rfl (.cons rfl (.cons rfl .nil))))
    (by decide) (by decide)).1

/-- Claim C6: when the argument count is right but some position's
runtime type differs from its column's declared tag, insert fails with
`ValidationError` naming a mismatched field, the given type and the
expected type (the first such position), and produces no filesystem
state, so the stored rows are unchanged. -/
theorem insert_type_mismatch (fs : FS) (t : Table) (cols : List Column)
    (args : List Value) (hc : t.columns = some cols)
    (hlen : args.length = cols.length)
    (hm : ∃ i, ∃ (h1 : i < cols.length) (h2 : i < args.length),
      (cols[i]).type ≠ pyTypeName args[i]) :
    ∃ j, ∃ (h1 : j < cols.length) (h2 : j < args.length),
      (cols[j]).type ≠ pyTypeName args[j] ∧
      tableInsert fs t args = .error (.validationError (some
        ("Invalid type of field \"" ++ (cols[j]).name ++ "\": Given \"" ++
          pyTypeName args[j] ++ "\", expected \"" ++ (cols[j]).type ++ "\""))) := by
  have hb : (args.length != cols.length) = false := by simp [hlen]
  rcases buildData_err cols args [] hlen.symm hm with ⟨j, h1, h2, hne, heq⟩
  exact ⟨j, h1, h2, hne, by
    simp only [tableInsert, hc, hb, Bool.false_eq_true, if_false, heq]⟩

/-- Witness for `insert_type_mismatch`: the spec's example — a float
where an integer is expected — fails naming the `age` field. -/
theorem insert_type_mismatch_witness :
    tableInsert exampleFS exampleTable [.str "Bo", .float "2.5"]
      = .error (.validationError (some
        "Invalid type of field \"age\": Given \"float\", expected \"int\"")) := by
  obtain ⟨j, h1, h2, hne, heq⟩ := insert_type_mismatch exampleFS exampleTable
    [⟨"name", "str"⟩, ⟨"age", "int"⟩] [.str "Bo", .float "2.5"] rfl rfl
    ⟨1, by decide, by decide, by decide⟩
  have hj2 : j < 2 := by simpa using h1
  interval_cases j
  · exact absurd rfl hne
  · exact heq

/-- Claim C9: reconnecting to a database directory that holds
previously created table files (each named `name.json`, names unique)
leaves the filesystem untouched, rediscovers every table name, binds
each name to a handle carrying its persisted schema, and each handle
reports the persisted row count. -/
theorem reconnect_rediscovers_tables (fs : FS) (db : String)
    (fls : List (String × TableFile))
    (hfind : fsFind fs db = some fls)
    (hnames : ∀ p ∈ fls, hasJsonSub p.1 = true ∧
      tableFilename (stripJson p.1) = p.1)
    (hnd : (fls.map Prod.fst).Nodup) :
    (connectDatabase fs db).1 = fs ∧
    (connectDatabase fs db).2.tables = fls.map (fun p => stripJson p.1) ∧
    (connectDatabase fs db).2.handles
      = fls.map (fun p => (stripJson p.1,
          (⟨db, stripJson p.1, p.2.columns⟩ : Table))) ∧
    ∀ p ∈ fls, tableCount fs (⟨db, stripJson p.1, p.2.columns⟩ : Table)
      = .ok p.2.rows.length := by
  have hrt : ∀ p ∈ fls,
      readTableFile fs db (tableFilename (stripJson p.1)) = some p.2 := by
    intro p hp
    rw [(hnames p hp).2]
    unfold readTableFile
    rw [hfind]
    simp only [Option.some_bind]
    rw [find?_mem_nodup fls p hnd hp]
    rfl
  have hcols : ∀ p ∈ fls, readColumns fs db (stripJson p.1) = p.2.columns := by
    intro p hp
    unfold readColumns
    rw [hrt p hp]
  have hfilter : (fls.map (fun p => p.1)).filter hasJsonSub
      = fls.map (fun p => p.1) := by
    rw [List.filter_eq_self]
    intro a ha
    rcases List.mem_map.mp ha with ⟨p, hp, rfl⟩
    exact (hnames p hp).1
  have hfileEx : ∀ n ∈ (fls.map (fun p => p.1)).map stripJson,
      fileExists fs db (tableFilename n) = true := by
    intro n hn
    rcases List.mem_map.mp hn with ⟨a, ha, rfl⟩
    rcases List.mem_map.mp ha with ⟨p, hp, rfl⟩
    rw [(hnames p hp).2]
    unfold fileExists
    rw [hfind]
    exact List.any_eq_true.mpr ⟨p, hp, beq_iff_eq.mpr rfl⟩
  have hconn : connectDatabase fs db
      = (fs, ⟨db, (fls.map (fun p => p.1)).map stripJson,
          ((fls.map (fun p => p.1)).map stripJson).map
            (fun n => (n, ⟨db, n, readColumns fs db n⟩))⟩) := by
    simp only [connectDatabase, readTables, hfind, hfilter]
    rw [readTables_fold ((fls.map (fun p => p.1)).map stripJson) fs db [] hfileEx]
    rfl
  refine ⟨by rw [hconn], ?_, ?_, ?_⟩
  · rw [hconn]
    simp [List.map_map]
  · rw [hconn]
    simp only [List.map_map]
    refine List.map_congr_left ?_
    intro p hp
    simp only [Function.comp]
    rw [hcols p hp]
  · intro p hp
    unfold tableCount
    rw [hrt p hp]

/-- Witness for `reconnect_rediscovers_tables`: a directory with two
table files is rediscovered with both names, schemas and counts. -/
theorem reconnect_rediscovers_tables_witness :
    (connectDatabase (⟨[("shop",
        [("users.json", ⟨some [⟨"name", "str"⟩], [[("name", .str "Ana")]]⟩),
         ("items.json", ⟨some [⟨"id", "int"⟩], []⟩)])]⟩ : FS) "shop").2.handles
      = [("users", ⟨"shop", "users", some [⟨"name", "str"⟩]⟩),
         ("items", ⟨"shop", "items", some [⟨"id", "int"⟩]⟩)] :=
  (reconnect_rediscovers_tables (⟨[("shop",
      [("users.json", ⟨some [⟨"name", "str"⟩], [[("name", .str "Ana")]]⟩),
       ("items.json", ⟨some [⟨"id", "int"⟩], []⟩)])]⟩ : FS) "shop"
    [("users.json", ⟨some [⟨"name", "str"⟩], [[("name", .str "Ana")]]⟩),
     ("items.json", ⟨some [⟨"id", "int"⟩], []⟩)]
    rfl (by decide) (by decide)).2.2.1

end SimpleDB
